import Mathlib

/-!
# go-cqhttp `server/http.go`: inbound API gateway and outbound webhook worker

A shallow embedding of `checkAuth`, `httpCtx.Get`, `httpServer.ServeHTTP`,
`runHTTP` and `HTTPClient.onBotPushEvent`, followed by the properties proved
about them.

Go strings are Lean strings; the `strings` functions the source calls are
written over the character lists.  Third-party behaviour (`gjson`, the network,
the random source, the bot) enters as parameters.  A handler is a function from
its inputs to the record of what it does: the headers it writes, the calls it
makes, the sleeps it takes and the way it ends.
-/

set_option autoImplicit false

namespace GoCqhttp

/-! ## `strings` -/

namespace strings

/-- Go `strings.HasPrefix(s, p)`. -/
def HasPrefix (s p : String) : Bool :=
  p.data.isPrefixOf s.data

/-- Go `strings.HasSuffix(s, p)`. -/
def HasSuffix (s p : String) : Bool :=
  p.data.isSuffixOf s.data

/-- Whether `sub` occurs in `l` as a contiguous block. -/
def containsList (sub : List Char) : List Char → Bool
  | [] => sub.isEmpty
  | c :: cs => sub.isPrefixOf (c :: cs) || containsList sub cs

/-- Go `strings.Contains(s, sub)`. -/
def Contains (s sub : String) : Bool :=
  containsList sub.data s.data

/-- Go `strings.TrimPrefix(s, p)`: `s` without the leading `p`, when it has one. -/
def TrimPrefix (s p : String) : String :=
  if HasPrefix s p then ⟨s.data.drop p.data.length⟩ else s

/-- Go `strings.TrimSuffix(s, p)`: `s` without the trailing `p`, when it has one. -/
def TrimSuffix (s p : String) : String :=
  if HasSuffix s p then ⟨s.data.take (s.data.length - p.data.length)⟩ else s

/-- The part of `l` before the first `c` and the part after it; `none` when `c` does not occur. -/
def cutAt (c : Char) : List Char → Option (List Char × List Char)
  | [] => none
  | x :: xs =>
    if x = c then some ([], xs)
    else match cutAt c xs with
      | none => none
      | some (a, b) => some (x :: a, b)

/-- Go `strings.SplitN(s, " ", 2)`: at most two pieces, cut at the first space.
The empty string gives the single piece `""`. -/
def SplitN2 (s : String) : List String :=
  match cutAt ' ' s.data with
  | none => [s]
  | some (a, b) => [⟨a⟩, ⟨b⟩]

end strings

/-! ## `http.Header` and `url.Values` -/

/-- Go `map[string][]string`, the type under both `http.Header` and `url.Values`,
as an association list read at the first entry of a key. -/
abbrev Values := List (String × List String)

/-- Go `Header.Get` / `Values.Get`: the first value stored under `key`, or `""` when
there is none. -/
def Values.Get (v : Values) (key : String) : String :=
  match v.lookup key with
  | some (x :: _) => x
  | _ => ""

/-- The key has an entry with at least one value. -/
def Values.Has (v : Values) (key : String) : Bool :=
  match v.lookup key with
  | some (_ :: _) => true
  | _ => false

/-! ## Requests -/

/-- The parts of `*http.Request` the handlers read. -/
structure Request where
  /-- The field `Method`. -/
  Method : String
  /-- The field `Header`. -/
  Header : Values
  /-- The field `URL.Path`. -/
  Path : String
  /-- The result of `URL.Query()`. -/
  Query : Values
  /-- The result of `io.ReadAll(request.Body)`: `none` when reading fails. -/
  Body : Option String
  /-- Whether `request.ParseForm()` returns an error. -/
  ParseFormErr : Bool
  /-- The field `PostForm` once `ParseForm` has run (never nil then). -/
  PostForm : Values

def StatusOK : Nat := 200
def StatusBadRequest : Nat := 400
def StatusUnauthorized : Nat := 401
def StatusForbidden : Nat := 403
def StatusNotFound : Nat := 404

/-! ## `checkAuth` -/

/-- Source `checkAuth(req, token)`. -/
def checkAuth (req : Request) (token : String) : Nat :=
  if token = "" then StatusOK
  else
    let auth := req.Header.Get "Authorization"
    let auth :=
      if auth = "" then req.Query.Get "access_token"
      else
        match strings.SplitN2 auth with
        | [_, second] => second
        | _ => auth
    if auth = token then StatusOK
    else if auth = "" then StatusUnauthorized
    else StatusForbidden

/-! ## `gjson` -/

namespace gjson

/-- The `gjson.Type` tags. -/
inductive Type_ where
  | Null | False | Number | String | True | JSON
  deriving DecidableEq, Repr

/-- The fields of `gjson.Result` that `http.go` sets or reads.  The zero value is the
missing result. -/
structure Result where
  /-- The field `Type`. -/
  Typ : Type_ := Type_.Null
  /-- The field `Raw`. -/
  Raw : String := ""
  /-- The field `Str`. -/
  Str : String := ""
  deriving DecidableEq, Repr

/-- Library `Result.Exists`: `t.Type != Null || len(t.Raw) != 0`. -/
def Result.Exists (t : Result) : Bool :=
  t.Typ != Type_.Null || t.Raw != ""

end gjson

/-- The `gjson` functions the source calls, taken as parameters. -/
structure Gjson where
  /-- The functions `gjson.Valid` and `gjson.ValidBytes`. -/
  Valid : String → Bool
  /-- The functions `gjson.Parse` and `gjson.ParseBytes`. -/
  Parse : String → gjson.Result
  /-- The method `Result.Get(path)`. -/
  Get : gjson.Result → String → gjson.Result

/-! ## `httpCtx` -/

/-- Source `httpCtx`; the two maps may be nil. -/
structure httpCtx where
  json : gjson.Result := {}
  query : Option Values := none
  postForm : Option Values := none
  deriving DecidableEq, Repr

/-- The closure `validJSONParam` of `httpCtx.Get`. -/
def validJSONParam (g : Gjson) (p : String) : Bool :=
  (strings.HasPrefix p "\x7b" || strings.HasPrefix p "[") && g.Valid p

/-- The result `httpCtx.Get` builds from a non-empty form or query value. -/
def paramResult (g : Gjson) (raw : String) : gjson.Result :=
  if validJSONParam g raw then { Typ := gjson.Type_.JSON, Raw := raw }
  else { Typ := gjson.Type_.String, Str := raw }

/-- The query step of `httpCtx.Get`. -/
def httpCtx.GetQuery (g : Gjson) (h : httpCtx) (s : String) : gjson.Result :=
  match h.query with
  | some q =>
    let query := q.Get s
    if query ≠ "" then paramResult g query else {}
  | none => {}

/-- Source `httpCtx.Get`. -/
def httpCtx.Get (g : Gjson) (h : httpCtx) (s : String) : gjson.Result :=
  let j := g.Get h.json s
  if j.Exists then j
  else
    match h.postForm with
    | some pf =>
      let form := pf.Get s
      if form ≠ "" then paramResult g form else h.GetQuery g s
    | none => h.GetQuery g s

/-! ## `httpServer.ServeHTTP` -/

/-- The second argument of `api.Call`: a `gjson.Result` or the request context. -/
inductive ParamSource where
  | result (r : gjson.Result)
  | ctx (c : httpCtx)
  deriving DecidableEq, Repr

/-- Source `httpServer`, without the listener. -/
structure httpServer where
  accessToken : String

/-- What one `ServeHTTP` call does. -/
structure Served where
  /-- The `writer.WriteHeader` calls, in order. -/
  WriteHeader : List Nat := []
  /-- Whether `checkAuth` was evaluated. -/
  AuthChecked : Bool := false
  /-- The `s.api.Call` invocations, in order. -/
  Calls : List (String × ParamSource) := []
  /-- The documents encoded into the body. -/
  Encoded : List String := []
  deriving DecidableEq, Repr

/-- The status of the response: `net/http` keeps the first `WriteHeader` and drops
the later ones as superfluous. -/
def Served.Status (r : Served) : Option Nat :=
  r.WriteHeader.head?

/-- The lines of `ServeHTTP` after the `switch`: the auth check and the dispatch.
`written` holds the `WriteHeader` calls made before. -/
def serveAfterSwitch (g : Gjson) (Call : String → ParamSource → String) (s : httpServer)
    (request : Request) (ctx : httpCtx) (written : List Nat) : Served :=
  let status := checkAuth request s.accessToken
  if status ≠ StatusOK then
    { WriteHeader := written ++ [status], AuthChecked := true }
  else if request.Path = "/" then
    let action := strings.TrimSuffix (ctx.Get g "action").Str "_async"
    let p := ParamSource.result (ctx.Get g "params")
    { WriteHeader := written ++ [StatusOK], AuthChecked := true,
      Calls := [(action, p)], Encoded := [Call action p] }
  else
    let action := strings.TrimPrefix request.Path "/"
    let action := strings.TrimSuffix action "_async"
    let p := ParamSource.ctx ctx
    { WriteHeader := written ++ [StatusOK], AuthChecked := true,
      Calls := [(action, p)], Encoded := [Call action p] }

/-- The form step of the `POST` case and what follows it. -/
def servePostForm (g : Gjson) (Call : String → ParamSource → String) (s : httpServer)
    (request : Request) (contentType : String) (ctx : httpCtx) : Served :=
  if strings.Contains contentType "application/x-www-form-urlencoded" then
    let written := if request.ParseFormErr then [StatusBadRequest] else []
    let ctx := { ctx with postForm := some request.PostForm }
    serveAfterSwitch g Call s request { ctx with query := some request.Query } written
  else
    serveAfterSwitch g Call s request { ctx with query := some request.Query } []

/-- Source `httpServer.ServeHTTP`. -/
def ServeHTTP (g : Gjson) (Call : String → ParamSource → String) (s : httpServer)
    (request : Request) : Served :=
  let ctx : httpCtx := {}
  let contentType := request.Header.Get "Content-Type"
  if request.Method = "POST" then
    if strings.Contains contentType "application/json" then
      match request.Body with
      | none => { WriteHeader := [StatusBadRequest] }
      | some body =>
        if !g.Valid body then { WriteHeader := [StatusBadRequest] }
        else servePostForm g Call s request contentType { ctx with json := g.Parse body }
    else servePostForm g Call s request contentType ctx
  else if request.Method = "GET" then
    serveAfterSwitch g Call s request { ctx with query := some request.Query } []
  else
    { WriteHeader := [StatusNotFound] }

/-! ## `runHTTP` -/

/-- One entry of `HTTPServer.Post`. -/
structure PostTarget where
  URL : String
  Secret : String
  deriving DecidableEq, Repr

/-- Source `HTTPServer`, with the fields of the embedded `MiddleWares` that `runHTTP`
reads (`AccessToken`, `Filter`, `RateLimit`). -/
structure HTTPServer where
  Disabled : Bool := false
  Host : String := ""
  Port : Int := 0
  Timeout : Int := 0
  LongPollingEnabled : Bool := false
  LongPollingMaxQueueSize : Int := 0
  Post : List PostTarget := []
  AccessToken : String := ""
  Filter : String := ""
  RateLimitEnabled : Bool := false
  RateLimitFrequency : Int := 0
  RateLimitBucket : Int := 0

/-- The package-level variables of `config2` (package `config`) that `runHTTP` reads. -/
structure Config2 where
  Secret : String
  Remote_address : String
  Remote_port : Int

/-- Source `HTTPClient`, without the bot. -/
structure HTTPClient where
  secret : String
  addr : String
  filter : String
  apiPort : Int
  timeout : Int
  deriving DecidableEq, Repr

/-- The listener `runHTTP` starts. -/
structure Listener where
  /-- The value of `http.Server.Addr`. -/
  Addr : String
  accessToken : String
  /-- Whether the `rateLimit` middleware is installed. -/
  RateLimit : Bool
  /-- Whether the `longPolling` middleware is installed. -/
  LongPolling : Bool
  deriving DecidableEq, Repr

/-- What `runHTTP` starts. -/
structure Started where
  /-- The goroutine running `ListenAndServe`, if started. -/
  Server : Option Listener := none
  /-- The `HTTPClient` values on which `go ... .Run()` is called, in order. -/
  Clients : List HTTPClient := []
  deriving DecidableEq, Repr

/-- The loop at label `client` of `runHTTP`. -/
def runClients (cfg : Config2) (conf : HTTPServer) : List PostTarget → List HTTPClient
  | [] => []
  | c :: rest =>
    if c.URL ≠ "" then
      { secret := cfg.Secret, addr := cfg.Remote_address, apiPort := cfg.Remote_port,
        filter := conf.Filter, timeout := conf.Timeout } :: runClients cfg conf rest
    else runClients cfg conf rest

/-- Source `runHTTP`.  `decodeErr` says whether `node.Decode(&conf)` fails. -/
def runHTTP (cfg : Config2) (decodeErr : Bool) (conf : HTTPServer) : Started :=
  if decodeErr then {}
  else if conf.Disabled then {}
  else if conf.Host = "" ∨ conf.Port = 0 then
    { Clients := runClients cfg conf conf.Post }
  else
    { Server := some { Addr := conf.Host ++ ":" ++ toString conf.Port,
                       accessToken := conf.AccessToken,
                       RateLimit := conf.RateLimitEnabled,
                       LongPolling := conf.LongPollingEnabled },
      Clients := runClients cfg conf conf.Post }

/-- Source `HTTPClient.Run`: the worker whose `onBotPushEvent` is registered. -/
def HTTPClient.Run (c : HTTPClient) : HTTPClient :=
  if c.timeout < 5 then { c with timeout := 5 } else c

/-! ## `HTTPClient.onBotPushEvent` -/

/-- A response as `onBotPushEvent` sees it. -/
structure Response where
  StatusCode : Nat
  /-- The result of `io.ReadAll(res.Body)`: `none` when reading fails. -/
  Body : Option String
  deriving DecidableEq, Repr

/-- The pair `(res, err)` returned by `client.Do`. -/
inductive DoResult where
  /-- The case `err == nil`: a response arrived, whatever its status code. -/
  | ok (res : Response)
  /-- The case `err != nil`; `res` is nil unless the redirect policy failed. -/
  | failed (res : Option Response)
  deriving DecidableEq, Repr

/-- One `client.Do` call. -/
structure Post where
  URL : String
  Header : Values
  Body : String
  /-- The client timeout, in seconds. -/
  Timeout : Int
  deriving DecidableEq, Repr

/-- The log lines of `onBotPushEvent`. -/
inductive Log where
  | filtered
  | newRequestFailed
  /-- The line announcing retry number `n`. -/
  | retry (n : Nat)
  /-- The line after the loop reporting that the delivery failed. -/
  | abandoned
  | delivered
  deriving DecidableEq, Repr

/-- How the call ends. -/
inductive Exit where
  | returned
  /-- A nil pointer dereference. -/
  | nilDereference
  deriving DecidableEq, Repr

/-- What one `onBotPushEvent` call does. -/
structure Pushed where
  /-- The `client.Do` calls, in order. -/
  Posts : List Post := []
  /-- The `time.Sleep` durations in nanoseconds, in order. -/
  Sleeps : List Nat := []
  Logs : List Log := []
  /-- The number of `io.ReadAll(res.Body)` calls. -/
  BodyReads : Nat := 0
  /-- The `CQHandleQuickOperation` calls: event JSON and response body. -/
  QuickOperations : List (String × String) := []
  Exit : Exit := Exit.returned
  deriving DecidableEq, Repr

/-- The surroundings of one `onBotPushEvent` call. -/
structure World where
  /-- The call `filter.Find(name)`: the `Eval` of the filter found, on the event JSON. -/
  Find : String → Option (String → Bool)
  /-- The field `bot.Client.Uin`. -/
  Uin : Int
  /-- The hex HMAC-SHA1 of a message under a key: `HmacSha1Hex key message`. -/
  HmacSha1Hex : String → String → String
  /-- Whether `http.NewRequest("POST", addr, _)` fails. -/
  NewRequestErr : String → Bool
  /-- The result of the `client.Do` call of iteration `i`. -/
  Do : Nat → DoResult
  /-- The raw random draw of iteration `i`. -/
  Rand : Nat → Nat
  /-- The function `gjson.ValidBytes`. -/
  Valid : String → Bool

def maxAttemptTimes : Nat := 5
/-- The constant `maxWait`: three seconds in nanoseconds. -/
def maxWait : Nat := 3000000000
/-- The constant `minWait`: 500 milliseconds in nanoseconds. -/
def minWait : Nat := 500000000

/-- Go `Header.Set`: the key holds exactly this value afterwards. -/
def Values.Set (v : Values) (key value : String) : Values :=
  (key, [value]) :: v.filter (fun kv => kv.1 != key)

/-- The header `onBotPushEvent` builds. -/
def pushHeader (w : World) (c : HTTPClient) (eventJSON : String) : Values :=
  let header : Values := []
  let header := header.Set "X-Self-ID" (toString w.Uin)
  let header := header.Set "User-Agent" "CQHttp/4.15.0"
  let header := header.Set "Content-Type" "application/json"
  let header :=
    if c.secret ≠ "" then header.Set "X-Signature" ("sha1=" ++ w.HmacSha1Hex c.secret eventJSON)
    else header
  if c.apiPort ≠ 0 then header.Set "X-API-Port" (toString c.apiPort) else header

/-- How the delivery loop is left. -/
inductive LoopEnd where
  /-- The `return` inside the loop. -/
  | returned (t : Pushed)
  /-- By `break` or by the loop condition, with the value of the outer `res`. -/
  | left (t : Pushed) (res : Option Response)

/-- The loop `for i := 0; i <= maxAttemptTimes; i++` of `onBotPushEvent`, over the
values of `i` still to run.  The `err` it tests is the one declared by
`req, err := http.NewRequest(...)` in the loop body; `res` is the outer variable. -/
def deliverLoop (w : World) (c : HTTPClient) (eventJSON : String) (header : Values) :
    List Nat → Pushed → Option Response → LoopEnd
  | [], t, res => LoopEnd.left t res
  | i :: rest, t, _ =>
    if w.NewRequestErr c.addr then
      LoopEnd.returned { t with Logs := t.Logs ++ [Log.newRequestFailed] }
    else
      let t := { t with Posts := t.Posts ++
        [{ URL := c.addr, Header := header, Body := eventJSON, Timeout := c.timeout }] }
      match w.Do i with
      | DoResult.ok res => LoopEnd.left t (some res)
      | DoResult.failed res =>
        let t := if i ≠ maxAttemptTimes then { t with Logs := t.Logs ++ [Log.retry (i + 1)] } else t
        let wait := w.Rand i % (maxWait - minWait) + minWait
        deliverLoop w c eventJSON header rest { t with Sleeps := t.Sleeps ++ [wait] } res

/-- The filter test that opens `onBotPushEvent`: whether the event is dropped. -/
def filteredOut (w : World) (c : HTTPClient) (eventJSON : String) : Bool :=
  if c.filter ≠ "" then
    match w.Find c.filter with
    | some eval => !eval eventJSON
    | none => false
  else false

/-- Source `HTTPClient.onBotPushEvent`, on the event with JSON form `eventJSON`. -/
def onBotPushEvent (w : World) (c : HTTPClient) (eventJSON : String) : Pushed :=
  if filteredOut w c eventJSON then { Logs := [Log.filtered] }
  else
    let header := pushHeader w c eventJSON
    -- the outer `var err error`: no statement of the loop assigns it
    let err : Bool := false
    match deliverLoop w c eventJSON header (List.range (maxAttemptTimes + 1)) {} none with
    | LoopEnd.returned t => t
    | LoopEnd.left t res =>
      if err then { t with Logs := t.Logs ++ [Log.abandoned] }
      else
        let t := { t with Logs := t.Logs ++ [Log.delivered] }
        match res with
        | none => { t with Exit := Exit.nilDereference }
        | some res =>
          let t := { t with BodyReads := t.BodyReads + 1 }
          match res.Body with
          | none => t
          | some r =>
            if w.Valid r then { t with QuickOperations := t.QuickOperations ++ [(eventJSON, r)] }
            else t

/-! ## Reference classifications for `checkAuth` -/

/-- The header value with everything up to and including the first space removed; the
whole value when it contains no space. -/
def stripScheme (v : String) : String :=
  if ' ' ∈ v.data then ⟨(v.data.dropWhile (fun x => x != ' ')).drop 1⟩ else v

/-- The three-way outcome for a non-empty configured token. -/
def classify (cred token : String) : Nat :=
  if cred = "" then 401 else if cred = token then 200 else 403

/-- The reference classification as the claim words it: the query value is used when
the `Authorization` header is absent. -/
def checkAuthSpec (req : Request) (token : String) : Nat :=
  if token = "" then 200
  else
    classify
      (if req.Header.Has "Authorization" then stripScheme (req.Header.Get "Authorization")
       else req.Query.Get "access_token")
      token

/-- The reference classification with the query value used when the `Authorization`
header is absent or its value is empty. -/
def checkAuthAmended (req : Request) (token : String) : Nat :=
  if token = "" then 200
  else
    classify
      (if req.Header.Get "Authorization" = "" then req.Query.Get "access_token"
       else stripScheme (req.Header.Get "Authorization"))
      token

/-- A request with an empty `Authorization` header and the token in the query. -/
def emptyAuthHeaderRequest : Request :=
  { Method := "GET", Header := [("Authorization", [""])], Path := "/get_status",
    Query := [("access_token", ["tok"])], Body := none, ParseFormErr := false, PostForm := [] }

/-- A request whose `Authorization` value is the bare token `a b`. -/
def spacedTokenRequest : Request :=
  { Method := "GET", Header := [("Authorization", ["a b"])], Path := "/get_status",
    Query := [], Body := none, ParseFormErr := false, PostForm := [] }

/-- A request with the given `Authorization` value and `access_token` query value. -/
def authRequest (header : List String) (query : List String) : Request :=
  { Method := "GET", Header := [("Authorization", header)], Path := "/get_status",
    Query := [("access_token", query)], Body := none, ParseFormErr := false, PostForm := [] }

/-! ## Sample inputs -/

/-- The JSON object whose one field `x` holds the number 1. -/
def objectX : String := "\x7b\"x\":1\x7d"

/-- The behaviour of `gjson` on the documents used in the examples: the arrays `[1]`,
`[6]`, `[]` and the object `objectX` are valid JSON, `[1,` is not; the field `x` of
`objectX` is the number 1; no other path of these documents or of the zero `Result`
leads to a value. -/
def sampleGjson : Gjson :=
  { Valid := fun b => b = "[1]" || b = "[6]" || b = "[]" || b = objectX,
    Parse := fun b => { Typ := gjson.Type_.JSON, Raw := b },
    Get := fun r path =>
      if r.Raw = objectX ∧ path = "x" then { Typ := gjson.Type_.Number, Raw := "1" } else {} }

/-- An executor that answers with the name of the action. -/
def echoCall : String → ParamSource → String :=
  fun action _ => action

/-- A `POST /send_msg` with a JSON content type and a body that is not valid JSON. -/
def badJSONRequest : Request :=
  { Method := "POST", Header := [("Content-Type", ["application/json; charset=utf-8"])],
    Path := "/send_msg", Query := [], Body := some "[1,", ParseFormErr := false,
    PostForm := [] }

/-- A `POST /send_msg` with a form content type whose body `ParseForm` rejects. -/
def badFormRequest : Request :=
  { Method := "POST", Header := [("Content-Type", ["application/x-www-form-urlencoded"])],
    Path := "/send_msg", Query := [], Body := some "%zz", ParseFormErr := true,
    PostForm := [] }

/-- A context without JSON body where `x` is in the form with an empty value and in the
query with value `q`. -/
def emptyFormCtx : httpCtx :=
  { postForm := some [("x", [""])], query := some [("x", ["q"])] }

/-- A context where `x` is in the JSON body, in the form and in the query. -/
def allThreeCtx : httpCtx :=
  { json := { Typ := gjson.Type_.JSON, Raw := objectX },
    postForm := some [("x", ["f"])], query := some [("x", ["q"])] }

/-- A context where `x` is in the form with value `f` and in the query with value `q`. -/
def formQueryCtx : httpCtx :=
  { postForm := some [("x", ["f"])], query := some [("x", ["q"])] }

/-! ## Reference resolution of the action -/

/-- The request context `ServeHTTP` has filled in when it reaches the dispatch: the parsed
JSON body of a `POST` with a JSON content type, the form of a `POST` with a form
content type, and the query. -/
def requestCtx (g : Gjson) (request : Request) : httpCtx :=
  let contentType := request.Header.Get "Content-Type"
  { json :=
      if request.Method = "POST" ∧ strings.Contains contentType "application/json" = true then
        match request.Body with
        | some body => g.Parse body
        | none => {}
      else {},
    postForm :=
      if request.Method = "POST" ∧
          strings.Contains contentType "application/x-www-form-urlencoded" = true then
        some request.PostForm
      else none,
    query := some request.Query }

/-- The action name and the parameter source as the claim words them. -/
def resolveAction (g : Gjson) (request : Request) : String × ParamSource :=
  if request.Path = "/" then
    (strings.TrimSuffix ((requestCtx g request).Get g "action").Str "_async",
     ParamSource.result ((requestCtx g request).Get g "params"))
  else
    (strings.TrimSuffix (strings.TrimPrefix request.Path "/") "_async",
     ParamSource.ctx (requestCtx g request))

/-- A `GET` of the given path, without credential. -/
def getRequest (path : String) : Request :=
  { Method := "GET", Header := [], Path := path, Query := [], Body := none,
    ParseFormErr := false, PostForm := [] }

/-- A `GET /` that names the action and the parameters in the query. -/
def rootRequest : Request :=
  { Method := "GET", Header := [], Path := "/",
    Query := [("action", ["send_msg_async"]), ("params", ["[1]"])], Body := none,
    ParseFormErr := false, PostForm := [] }

/-- The values of the `config2` variables used in the examples. -/
def sampleConfig2 : Config2 :=
  { Secret := "global-secret", Remote_address := "http://10.0.0.9:8080/", Remote_port := 9000 }

/-- An enabled configuration with two destinations and one entry without url. -/
def sampleConf : HTTPServer :=
  { Host := "127.0.0.1", Port := 5700, Timeout := 5,
    Post := [{ URL := "http://127.0.0.1:5701/", Secret := "s1" },
             { URL := "", Secret := "s0" },
             { URL := "http://127.0.0.1:5702/", Secret := "s2" }] }

/-- A worker without filter and without secret. -/
def sampleClient : HTTPClient :=
  { secret := "", addr := "http://127.0.0.1:5701/", filter := "", apiPort := 0, timeout := 5 }

/-- The JSON form of the event used in the examples. -/
def sampleEvent : String := "[]"

/-- A world around a worker whose `client.Do` calls end as `answer` says. -/
def worldOf (answer : Nat → DoResult) : World :=
  { Find := fun _ => none, Uin := 10000, HmacSha1Hex := fun _ _ => "",
    NewRequestErr := fun _ => false, Do := answer, Rand := fun i => i,
    Valid := sampleGjson.Valid }

/-- An unreachable destination: every `client.Do` returns a nil response and an error. -/
def unreachable : Nat → DoResult :=
  fun _ => DoResult.failed none

/-- A destination that answers HTTP 500 with body `[1]` five times, then HTTP 200 with
body `[6]`. -/
def fiveTimes500 : Nat → DoResult :=
  fun i => if i < 5 then DoResult.ok { StatusCode := 500, Body := some "[1]" }
           else DoResult.ok { StatusCode := 200, Body := some "[6]" }

/-- A destination that cannot be reached five times, then answers HTTP 200 with body
`[6]`. -/
def fiveTimesDown : Nat → DoResult :=
  fun i => if i < 5 then DoResult.failed none
           else DoResult.ok { StatusCode := 200, Body := some "[6]" }

/-- A destination that cannot be reached five times, then answers HTTP 200 with the body
`ok`, which is not JSON. -/
def fiveTimesDownThenText : Nat → DoResult :=
  fun i => if i < 5 then DoResult.failed none
           else DoResult.ok { StatusCode := 200, Body := some "ok" }

/-! # Properties -/

/-! ## Lemmas on `strings` -/

theorem cutAt_none_iff (c : Char) (l : List Char) : strings.cutAt c l = none ↔ c ∉ l := by
  induction l with
  | nil => simp [strings.cutAt]
  | cons x xs ih =>
    by_cases hx : x = c
    · simp [strings.cutAt, hx]
    · have hx2 : ¬ c = x := fun h => hx h.symm
      cases hcut : strings.cutAt c xs with
      | none => simp [strings.cutAt, hx, hx2, hcut, ih.mp hcut]
      | some p =>
        have : c ∈ xs := by
          by_contra hmem
          rw [ih.mpr hmem] at hcut
          cases hcut
        simp [strings.cutAt, hx, hcut, this]

theorem cutAt_some_snd (c : Char) (l a b : List Char) (h : strings.cutAt c l = some (a, b)) :
    b = (l.dropWhile (fun x => x != c)).drop 1 := by
  induction l generalizing a with
  | nil => simp [strings.cutAt] at h
  | cons x xs ih =>
    by_cases hx : x = c
    · simp [strings.cutAt, hx] at h
      simp [List.dropWhile, hx, h.2]
    · cases hcut : strings.cutAt c xs with
      | none => simp [strings.cutAt, hx, hcut] at h
      | some p =>
        obtain ⟨a2, b2⟩ := p
        simp [strings.cutAt, hx, hcut] at h
        have hne : (x != c) = true := by simp [hx]
        have hb := ih a2 (by rw [hcut, h.2])
        rw [List.dropWhile_cons, if_pos hne]
        exact hb

theorem cutAt_append (c : Char) (a b : List Char) (h : c ∉ a) :
    strings.cutAt c (a ++ c :: b) = some (a, b) := by
  induction a with
  | nil => simp [strings.cutAt]
  | cons x xs ih =>
    have hx : ¬ x = c := fun e => h (by simp [e])
    have hxs : c ∉ xs := fun e => h (by simp [e])
    simp [strings.cutAt, hx, ih hxs]

/-- Claim C1, amended: `checkAuth` equals the three-way reference classification in
which the `access_token` query value is the credential when the `Authorization` header
is absent or its value is empty. -/
theorem checkAuth_eq_amended (req : Request) (token : String) :
    checkAuth req token = checkAuthAmended req token := by
  unfold checkAuth checkAuthAmended
  by_cases ht : token = ""
  · simp [ht, StatusOK]
  · have ht2 : ¬ "" = token := fun h => ht h.symm
    simp only [ht, if_false]
    by_cases hh : req.Header.Get "Authorization" = ""
    · simp only [hh, if_true, classify, StatusOK, StatusUnauthorized, StatusForbidden]
      by_cases h1 : req.Query.Get "access_token" = token
      · simp [h1, ht]
      · by_cases h2 : req.Query.Get "access_token" = "" <;> simp [h1, h2, ht2]
    · simp only [hh, if_false]
      have key : (match strings.SplitN2 (req.Header.Get "Authorization") with
          | [_, second] => second
          | _ => req.Header.Get "Authorization") = stripScheme (req.Header.Get "Authorization") := by
        unfold strings.SplitN2 stripScheme
        cases hcut : strings.cutAt ' ' (req.Header.Get "Authorization").data with
        | none =>
          have := (cutAt_none_iff _ _).mp hcut
          simp [this]
        | some p =>
          obtain ⟨a, b⟩ := p
          have hmem : ' ' ∈ (req.Header.Get "Authorization").data := by
            by_contra hm
            rw [(cutAt_none_iff _ _).mpr hm] at hcut
            cases hcut
          have := cutAt_some_snd _ _ _ _ hcut
          simp [hmem, this]
      rw [key]
      simp only [classify, StatusOK, StatusUnauthorized, StatusForbidden]
      by_cases h1 : stripScheme (req.Header.Get "Authorization") = token
      · simp [h1, ht]
      · by_cases h2 : stripScheme (req.Header.Get "Authorization") = "" <;> simp [h1, h2, ht2]

/-- Claim C1 as stated fails: with an `Authorization` header that is present and empty
and the token in the query, `checkAuth` answers 200 where the stated classification
answers 401. -/
theorem checkAuth_spec_counterexample :
    emptyAuthHeaderRequest.Header.Has "Authorization" = true ∧
    checkAuth emptyAuthHeaderRequest "tok" = 200 ∧
    checkAuthSpec emptyAuthHeaderRequest "tok" = 401 := by
  decide

/-- Claim C2 as stated fails: the token `a b` sent bare in the header is cut at its
space and refused with 403. -/
theorem checkAuth_bare_token_counterexample :
    ("a b" : String) ≠ "" ∧
    spacedTokenRequest.Header.Get "Authorization" = "a b" ∧
    checkAuth spacedTokenRequest "a b" = 403 := by
  decide

/-- Claim C2, amended: for a non-empty token `t`, `checkAuth` returns 200 when the
`Authorization` value is `t` itself and `t` has no space, or is a space-free scheme word
followed by a space and `t`, or is absent or empty while the `access_token` query
value is `t`. -/
theorem checkAuth_accepts_token (req : Request) (t scheme : String) (ht : t ≠ "")
    (h : (req.Header.Get "Authorization" = t ∧ ' ' ∉ t.data) ∨
         (req.Header.Get "Authorization" = scheme ++ " " ++ t ∧ ' ' ∉ scheme.data) ∨
         (req.Header.Get "Authorization" = "" ∧ req.Query.Get "access_token" = t)) :
    checkAuth req t = 200 := by
  unfold checkAuth
  simp only [ht, if_false]
  rcases h with ⟨hh, hsp⟩ | ⟨hh, hsp⟩ | ⟨hh, hq⟩
  · have hcut := (cutAt_none_iff ' ' t.data).mpr hsp
    simp [hh, ht, strings.SplitN2, hcut, StatusOK]
  · have hcut : strings.cutAt ' ' (scheme.data ++ ' ' :: t.data) = some (scheme.data, t.data) :=
      cutAt_append ' ' scheme.data t.data hsp
    have hne : ¬ scheme ++ " " ++ t = "" := by
      intro e
      have := congrArg String.data e
      simp [String.data_append] at this
    simp [hh, hne, strings.SplitN2, hcut, StatusOK]
  · simp [hh, hq, StatusOK]

/-- The three ways of sending the token `tok`: bare, after the scheme `Bearer`, in the
query. -/
theorem checkAuth_accepts_token_witness :
    checkAuth (authRequest ["tok"] []) "tok" = 200 ∧
    checkAuth (authRequest ["Bearer tok"] []) "tok" = 200 ∧
    checkAuth (authRequest [] ["tok"]) "tok" = 200 :=
  ⟨checkAuth_accepts_token (authRequest ["tok"] []) "tok" "" (by decide)
      (Or.inl ⟨by decide, by decide⟩),
   checkAuth_accepts_token (authRequest ["Bearer tok"] []) "tok" "Bearer" (by decide)
      (Or.inr (Or.inl ⟨by decide, by decide⟩)),
   checkAuth_accepts_token (authRequest [] ["tok"]) "tok" "" (by decide)
      (Or.inr (Or.inr ⟨by decide, by decide⟩))⟩

/-! ## `ServeHTTP`: malformed input -/

/-- Claim C3: a `POST` whose `Content-Type` contains `application/json` and whose body is
not valid JSON is answered with the single status 400; `checkAuth` is not evaluated and
`api.Call` is not invoked, whatever the token and the credential. -/
theorem ServeHTTP_invalid_json (g : Gjson) (Call : String → ParamSource → String)
    (s : httpServer) (request : Request) (body : String)
    (hm : request.Method = "POST")
    (hct : strings.Contains (request.Header.Get "Content-Type") "application/json" = true)
    (hb : request.Body = some body) (hv : g.Valid body = false) :
    (ServeHTTP g Call s request).Status = some 400 ∧
    (ServeHTTP g Call s request).WriteHeader = [400] ∧
    (ServeHTTP g Call s request).AuthChecked = false ∧
    (ServeHTTP g Call s request).Calls = [] := by
  simp [ServeHTTP, hm, hct, hb, hv, Served.Status, StatusBadRequest]

/-- The request `badJSONRequest`, with a token configured and no credential sent. -/
theorem ServeHTTP_invalid_json_witness :
    (ServeHTTP sampleGjson echoCall { accessToken := "tok" } badJSONRequest).Status = some 400 ∧
    (ServeHTTP sampleGjson echoCall { accessToken := "tok" } badJSONRequest).WriteHeader = [400] ∧
    (ServeHTTP sampleGjson echoCall { accessToken := "tok" } badJSONRequest).AuthChecked = false ∧
    (ServeHTTP sampleGjson echoCall { accessToken := "tok" } badJSONRequest).Calls = [] :=
  ServeHTTP_invalid_json sampleGjson echoCall { accessToken := "tok" } badJSONRequest "[1,"
    (by decide) (by decide) (by decide) (by decide)

/-- Claim C4 fails on the code: for a `POST` whose form body `ParseForm` rejects, with no
token configured, `ServeHTTP` writes 400, goes on to evaluate `checkAuth`, invokes
`api.Call` with action `send_msg` and writes 200. -/
theorem ServeHTTP_form_error_dispatches :
    ServeHTTP sampleGjson echoCall { accessToken := "" } badFormRequest =
      { WriteHeader := [400, 200], AuthChecked := true,
        Calls := [("send_msg", ParamSource.ctx { postForm := some [], query := some [] })],
        Encoded := ["send_msg"] } := by
  decide

/-! ## `httpCtx.Get` -/

/-- Claim C5 as stated fails: with `x` absent from the JSON body, present in the form
with an empty value and present in the query, `Get` returns the value built from the
query entry. -/
theorem Get_empty_form_counterexample :
    emptyFormCtx.postForm = some [("x", [""])] ∧
    emptyFormCtx.query = some [("x", ["q"])] ∧
    (sampleGjson.Get emptyFormCtx.json "x").Exists = false ∧
    Values.Has [("x", [""])] "x" = true ∧
    Values.Has [("x", ["q"])] "x" = true ∧
    emptyFormCtx.Get sampleGjson "x" = paramResult sampleGjson "q" ∧
    emptyFormCtx.Get sampleGjson "x" ≠ paramResult sampleGjson "" := by
  decide

/-- Claim C5, amended: when the form value of `s` is not empty, `Get s` is the JSON
body's value if the body has one, and otherwise the value built from the form entry,
whatever the query holds. -/
theorem Get_precedence (g : Gjson) (h : httpCtx) (s : String) (pf : Values)
    (hpf : h.postForm = some pf) (hform : pf.Get s ≠ "") :
    h.Get g s =
      if (g.Get h.json s).Exists then g.Get h.json s else paramResult g (pf.Get s) := by
  unfold httpCtx.Get
  by_cases hj : (g.Get h.json s).Exists = true
  · simp [hj]
  · simp [hj, hpf, hform]

/-- With `x` in all three places the JSON number wins; with `x` in form and query the
form value `f` wins. -/
theorem Get_precedence_witness :
    (allThreeCtx.Get sampleGjson "x" = { Typ := gjson.Type_.Number, Raw := "1" }) ∧
    (formQueryCtx.Get sampleGjson "x" = { Typ := gjson.Type_.String, Str := "f" }) :=
  ⟨(Get_precedence sampleGjson allThreeCtx "x" [("x", ["f"])] rfl (by decide)).trans
      (by decide),
   (Get_precedence sampleGjson formQueryCtx "x" [("x", ["f"])] rfl (by decide)).trans
      (by decide)⟩

/-! ## `ServeHTTP`: dispatch -/

theorem TrimPrefix_append (p x : String) : strings.TrimPrefix (p ++ x) p = x := by
  have h : strings.HasPrefix (p ++ x) p = true := by
    simp [strings.HasPrefix, String.data_append]
  simp [strings.TrimPrefix, h, String.data_append]

theorem TrimSuffix_append (a p : String) : strings.TrimSuffix (a ++ p) p = a := by
  have h : strings.HasSuffix (a ++ p) p = true := by
    simp [strings.HasSuffix, String.data_append]
  simp [strings.TrimSuffix, h, String.data_append]

theorem TrimSuffix_of_not_suffix (a p : String) (h : strings.HasSuffix a p = false) :
    strings.TrimSuffix a p = a := by
  simp [strings.TrimSuffix, h]

theorem slash_append_ne (a : String) (h : a ≠ "") : "/" ++ a ≠ "/" := by
  intro e
  apply h
  have hd := congrArg String.data e
  simp [String.data_append] at hd
  exact String.ext hd

theorem slash_append_async_ne (a : String) : "/" ++ a ++ "_async" ≠ "/" := by
  intro e
  have hd := congrArg (fun s => s.data.length) e
  simp [String.data_append] at hd

/-- After a 400 has been written the status of the response is 400. -/
theorem serveAfterSwitch_status_written (g : Gjson) (Call : String → ParamSource → String)
    (s : httpServer) (request : Request) (ctx : httpCtx) (w : Nat) (ws : List Nat) :
    (serveAfterSwitch g Call s request ctx (w :: ws)).Status = some w := by
  unfold serveAfterSwitch
  by_cases h1 : checkAuth request s.accessToken ≠ StatusOK
  · simp [h1, Served.Status]
  · by_cases h2 : request.Path = "/" <;> simp [h1, h2, Served.Status]

/-- An accepted dispatch makes the one call the path and the context determine. -/
theorem serveAfterSwitch_calls (g : Gjson) (Call : String → ParamSource → String)
    (s : httpServer) (request : Request) (ctx : httpCtx)
    (h : (serveAfterSwitch g Call s request ctx []).Status = some StatusOK) :
    (serveAfterSwitch g Call s request ctx []).Calls =
      [if request.Path = "/" then
         (strings.TrimSuffix (ctx.Get g "action").Str "_async",
          ParamSource.result (ctx.Get g "params"))
       else
         (strings.TrimSuffix (strings.TrimPrefix request.Path "/") "_async",
          ParamSource.ctx ctx)] := by
  unfold serveAfterSwitch at h ⊢
  by_cases h1 : checkAuth request s.accessToken ≠ StatusOK
  · simp [h1, Served.Status] at h
  · by_cases h2 : request.Path = "/" <;> simp [h1, h2]

theorem ServeHTTP_calls (g : Gjson) (Call : String → ParamSource → String)
    (s : httpServer) (request : Request)
    (hacc : (ServeHTTP g Call s request).Status = some StatusOK) :
    (ServeHTTP g Call s request).Calls = [resolveAction g request] := by
  unfold ServeHTTP at hacc ⊢
  unfold resolveAction requestCtx
  by_cases hm : request.Method = "POST"
  · by_cases hj : strings.Contains (request.Header.Get "Content-Type") "application/json" = true
    · cases hb : request.Body with
      | none => simp [hm, hj, hb, Served.Status, StatusOK, StatusBadRequest] at hacc
      | some body =>
        by_cases hv : g.Valid body = true
        · simp only [hm, hj, hb, hv, if_true, servePostForm] at hacc ⊢
          by_cases hf : strings.Contains (request.Header.Get "Content-Type")
              "application/x-www-form-urlencoded" = true
          · by_cases he : request.ParseFormErr = true
            · simp [hf, he, serveAfterSwitch_status_written, StatusOK, StatusBadRequest] at hacc
            · simp only [hf, he, if_true] at hacc ⊢
              simpa [hf] using serveAfterSwitch_calls g Call s request _ hacc
          · simp only [hf] at hacc ⊢
            simpa [hf] using serveAfterSwitch_calls g Call s request _ hacc
        · simp [hm, hj, hb, hv, Served.Status, StatusOK, StatusBadRequest] at hacc
    · simp only [hm, hj, if_true, servePostForm] at hacc ⊢
      by_cases hf : strings.Contains (request.Header.Get "Content-Type")
          "application/x-www-form-urlencoded" = true
      · by_cases he : request.ParseFormErr = true
        · simp [hf, he, serveAfterSwitch_status_written, StatusOK, StatusBadRequest] at hacc
        · simp only [hf, he, if_true] at hacc ⊢
          simpa [hf, hj] using serveAfterSwitch_calls g Call s request _ hacc
      · simp only [hf] at hacc ⊢
        simpa [hf, hj] using serveAfterSwitch_calls g Call s request _ hacc
  · by_cases hg : request.Method = "GET"
    · simp only [hm, hg, if_true, if_false] at hacc ⊢
      simpa [hm] using serveAfterSwitch_calls g Call s request _ hacc
    · simp [hm, hg, Served.Status, StatusOK, StatusNotFound] at hacc

/-- Claim C6 as stated fails for an action name that itself ends in `_async`: the path
`/x_async` dispatches `x`, the path `/x_async_async` dispatches `x_async`. -/
theorem ServeHTTP_async_suffix_counterexample :
    (ServeHTTP sampleGjson echoCall { accessToken := "" }
        (getRequest ("/" ++ "x_async"))).Calls.map Prod.fst = ["x"] ∧
    (ServeHTTP sampleGjson echoCall { accessToken := "" }
        (getRequest ("/" ++ "x_async" ++ "_async"))).Calls.map Prod.fst = ["x_async"] := by
  decide

/-- Claim C6, amended: a request answered with status 200 makes exactly one call; for a
path other than `/` its action is the path without the leading `/` and without one
trailing `_async` and its parameter source is the request context; for `/` its action
is the string value of `action` without one trailing `_async` and its parameter source is
`Get("params")`.  For every non-empty action name `a` that does not end in `_async`,
the paths `/a` and `/a_async` both dispatch `a`. -/
theorem ServeHTTP_action_resolution (g : Gjson) (Call : String → ParamSource → String)
    (s : httpServer) (request : Request)
    (hacc : (ServeHTTP g Call s request).Status = some StatusOK) :
    (ServeHTTP g Call s request).Calls = [resolveAction g request] ∧
    ∀ a : String, a ≠ "" → strings.HasSuffix a "_async" = false →
      request.Path = "/" ++ a ∨ request.Path = "/" ++ a ++ "_async" →
      (ServeHTTP g Call s request).Calls.map Prod.fst = [a] := by
  have hcalls := ServeHTTP_calls g Call s request hacc
  refine ⟨hcalls, ?_⟩
  intro a ha hs hp
  rw [hcalls]
  rcases hp with hp | hp
  · have hne : request.Path ≠ "/" := by rw [hp]; exact slash_append_ne a ha
    simp only [resolveAction, hne, if_false, List.map_cons, List.map_nil]
    rw [hp, TrimPrefix_append, TrimSuffix_of_not_suffix a "_async" hs]
  · have hne : request.Path ≠ "/" := by rw [hp]; exact slash_append_async_ne a
    simp only [resolveAction, hne, if_false, List.map_cons, List.map_nil]
    rw [hp, String.append_assoc, TrimPrefix_append, TrimSuffix_append]

/-- The paths `/send_msg` and `/send_msg_async` dispatch `send_msg`; so does `/` with
`action=send_msg_async`, with the parsed `params` as parameter source. -/
theorem ServeHTTP_action_resolution_witness :
    (ServeHTTP sampleGjson echoCall { accessToken := "" }
        (getRequest "/send_msg")).Calls.map Prod.fst = ["send_msg"] ∧
    (ServeHTTP sampleGjson echoCall { accessToken := "" }
        (getRequest "/send_msg_async")).Calls.map Prod.fst = ["send_msg"] ∧
    (ServeHTTP sampleGjson echoCall { accessToken := "" } rootRequest).Calls =
      [("send_msg", ParamSource.result { Typ := gjson.Type_.JSON, Raw := "[1]" })] :=
  ⟨(ServeHTTP_action_resolution sampleGjson echoCall { accessToken := "" }
      (getRequest "/send_msg") (by decide)).2 "send_msg" (by decide) (by decide)
      (Or.inl (by decide)),
   (ServeHTTP_action_resolution sampleGjson echoCall { accessToken := "" }
      (getRequest "/send_msg_async") (by decide)).2 "send_msg" (by decide) (by decide)
      (Or.inr (by decide)),
   (ServeHTTP_action_resolution sampleGjson echoCall { accessToken := "" }
      rootRequest (by decide)).1.trans (by decide)⟩

/-! ## `runHTTP` -/

/-- Claim C9 fails on the code: with destinations `http://127.0.0.1:5701/` (secret `s1`)
and `http://127.0.0.1:5702/` (secret `s2`) configured, `runHTTP` starts two workers, and
both carry the address and the secret of the `config2` variables. -/
theorem runHTTP_clients_use_config2 :
    (runHTTP sampleConfig2 false sampleConf).Clients =
      [{ secret := "global-secret", addr := "http://10.0.0.9:8080/", filter := "",
         apiPort := 9000, timeout := 5 },
       { secret := "global-secret", addr := "http://10.0.0.9:8080/", filter := "",
         apiPort := 9000, timeout := 5 }] := by
  decide

/-! ## `onBotPushEvent` -/

/-- Claim C7 fails on the code: when all six attempts fail without a response,
`onBotPushEvent` makes six attempts, skips the abandonment branch, logs a delivery and
ends in a nil pointer dereference on `res.Body`. -/
theorem onBotPushEvent_exhausted_faults :
    (onBotPushEvent (worldOf unreachable) sampleClient sampleEvent).Posts.length = 6 ∧
    (onBotPushEvent (worldOf unreachable) sampleClient sampleEvent).Logs =
      [Log.retry 1, Log.retry 2, Log.retry 3, Log.retry 4, Log.retry 5, Log.delivered] ∧
    (onBotPushEvent (worldOf unreachable) sampleClient sampleEvent).QuickOperations = [] ∧
    (onBotPushEvent (worldOf unreachable) sampleClient sampleEvent).Exit =
      Exit.nilDereference := by
  decide

/-- Claim C10 fails on the code: when all six attempts fail, `onBotPushEvent` sleeps six
times, once after every attempt, the last one included. -/
theorem onBotPushEvent_exhausted_sleeps :
    (onBotPushEvent (worldOf unreachable) sampleClient sampleEvent).Posts.length = 6 ∧
    (onBotPushEvent (worldOf unreachable) sampleClient sampleEvent).Sleeps =
      [500000000, 500000001, 500000002, 500000003, 500000004, 500000005] := by
  decide

/-- Claim C8 as stated fails: a destination answering HTTP 500 is not retried; the first
answer ends the delivery, after one attempt, and the feedback is built from its body. -/
theorem onBotPushEvent_http500_counterexample :
    (onBotPushEvent (worldOf fiveTimes500) sampleClient sampleEvent).Posts.length = 1 ∧
    (onBotPushEvent (worldOf fiveTimes500) sampleClient sampleEvent).Sleeps = [] ∧
    (onBotPushEvent (worldOf fiveTimes500) sampleClient sampleEvent).QuickOperations =
      [(sampleEvent, "[1]")] := by
  decide

/-- The values of `i` the delivery loop runs through. -/
theorem range_six : List.range (maxAttemptTimes + 1) = [0, 1, 2, 3, 4, 5] := by
  decide

/-- Claim C8, amended: for an event that passes the filter and a destination for which
the request can be built, if `client.Do` returns an error on the first five attempts and
a response on the sixth, `onBotPushEvent` makes exactly six attempts, all to the
worker's address, with five sleeps between them, logs the delivery and not an
abandonment, reads the body of the sixth response once and returns normally.  The
quick-operation feedback is the single call built from the body of the sixth response
when that body can be read and is valid JSON, and there is none otherwise. -/
theorem onBotPushEvent_sixth_attempt (w : World) (c : HTTPClient) (eventJSON : String)
    (res : Response)
    (hpass : filteredOut w c eventJSON = false)
    (hreq : w.NewRequestErr c.addr = false)
    (hfail : ∀ i, i < 5 → ∃ r, w.Do i = DoResult.failed r)
    (hok : w.Do 5 = DoResult.ok res) :
    (onBotPushEvent w c eventJSON).Posts.length = 6 ∧
    (∀ p ∈ (onBotPushEvent w c eventJSON).Posts, p.URL = c.addr ∧ p.Body = eventJSON) ∧
    (onBotPushEvent w c eventJSON).Sleeps.length = 5 ∧
    (onBotPushEvent w c eventJSON).Logs =
      [Log.retry 1, Log.retry 2, Log.retry 3, Log.retry 4, Log.retry 5, Log.delivered] ∧
    (onBotPushEvent w c eventJSON).Exit = Exit.returned ∧
    (onBotPushEvent w c eventJSON).BodyReads = 1 ∧
    (onBotPushEvent w c eventJSON).QuickOperations =
      (match res.Body with
       | some body => if w.Valid body then [(eventJSON, body)] else []
       | none => []) := by
  obtain ⟨r0, h0⟩ := hfail 0 (by decide)
  obtain ⟨r1, h1⟩ := hfail 1 (by decide)
  obtain ⟨r2, h2⟩ := hfail 2 (by decide)
  obtain ⟨r3, h3⟩ := hfail 3 (by decide)
  obtain ⟨r4, h4⟩ := hfail 4 (by decide)
  cases hb : res.Body with
  | none =>
    simp [onBotPushEvent, hpass, range_six, deliverLoop, hreq, h0, h1, h2, h3, h4, hok, hb,
      maxAttemptTimes]
  | some body =>
    by_cases hv : w.Valid body = true
    · simp [onBotPushEvent, hpass, range_six, deliverLoop, hreq, h0, h1, h2, h3, h4, hok, hb,
        hv, maxAttemptTimes]
    · simp [onBotPushEvent, hpass, range_six, deliverLoop, hreq, h0, h1, h2, h3, h4, hok, hb,
        hv, maxAttemptTimes]

/-- A destination that is down five times and then answers 200 with body `[6]`, and one
that is down five times and then answers 200 with a body that is not JSON. -/
theorem onBotPushEvent_sixth_attempt_witness :
    ((onBotPushEvent (worldOf fiveTimesDown) sampleClient sampleEvent).Posts.length = 6 ∧
     (onBotPushEvent (worldOf fiveTimesDown) sampleClient sampleEvent).Sleeps.length = 5 ∧
     (onBotPushEvent (worldOf fiveTimesDown) sampleClient sampleEvent).Exit = Exit.returned ∧
     (onBotPushEvent (worldOf fiveTimesDown) sampleClient sampleEvent).QuickOperations =
       [(sampleEvent, "[6]")]) ∧
    ((onBotPushEvent (worldOf fiveTimesDownThenText) sampleClient sampleEvent).Posts.length = 6 ∧
     (onBotPushEvent (worldOf fiveTimesDownThenText) sampleClient sampleEvent).Exit =
       Exit.returned ∧
     (onBotPushEvent (worldOf fiveTimesDownThenText) sampleClient sampleEvent).QuickOperations =
       []) :=
  have h1 := onBotPushEvent_sixth_attempt (worldOf fiveTimesDown) sampleClient sampleEvent
    { StatusCode := 200, Body := some "[6]" } (by decide) (by decide)
    (fun i hi => ⟨none, by simp [worldOf, fiveTimesDown, hi]⟩) (by decide)
  have h2 := onBotPushEvent_sixth_attempt (worldOf fiveTimesDownThenText) sampleClient
    sampleEvent { StatusCode := 200, Body := some "ok" } (by decide) (by decide)
    (fun i hi => ⟨none, by simp [worldOf, fiveTimesDownThenText, hi]⟩) (by decide)
  ⟨⟨h1.1, h1.2.2.1, h1.2.2.2.2.1, h1.2.2.2.2.2.2.trans (by decide)⟩,
   ⟨h2.1, h2.2.2.2.2.1, h2.2.2.2.2.2.2.trans (by decide)⟩⟩

end GoCqhttp
